import Mathlib

/-
Verification development for the Short-Link-Generator repository.

The definitions below are a shallow embedding of
src/services/linkShortenerService.ts and of the handlers in src/App.tsx.
Pure TypeScript logic becomes Lean functions; promise rejection becomes
an Except value; the click-counter store persisted in local storage
becomes an explicit state value threaded through the operations; the
simulated setTimeout delay becomes an explicit settle-time component.

Platform primitives used by the code (String.prototype.trim, substring,
toLowerCase, the WHATWG URL constructor, JSON.parse, Math.random) are
modelled by executable Lean functions whose doc comments state exactly
which fragment of platform behaviour they cover.
-/

/-- Model of the character class trimmed by JavaScript String.prototype.trim:
ECMAScript WhiteSpace and LineTerminator code points. -/
def isJsWhitespace (c : Char) : Bool :=
  decide (c.toNat ∈ [9, 10, 11, 12, 13, 32, 160, 5760,
    8192, 8193, 8194, 8195, 8196, 8197, 8198, 8199, 8200, 8201, 8202,
    8232, 8233, 8239, 8287, 12288, 65279])

/-- Model of JavaScript String.prototype.trim: drop leading and trailing
JS whitespace. -/
def jsTrim (s : String) : String :=
  String.mk (((s.toList.dropWhile isJsWhitespace).reverse.dropWhile isJsWhitespace).reverse)

/-- Structural helper: does the first character list start with the second. -/
def startsWithChars : List Char → List Char → Bool
  | _, [] => true
  | [], _ :: _ => false
  | c :: cs, p :: ps => c == p && startsWithChars cs ps

/-- Model of JavaScript String.prototype.startsWith. -/
def jsStartsWith (s pre : String) : Bool :=
  startsWithChars s.toList pre.toList

/-- Model of JavaScript String.prototype.substring: clamps and swaps its
index arguments. Indices are UTF-16 code units in JS; every string this
code applies it to is ASCII, where code units and characters coincide. -/
def jsSubstring (s : String) (a b : Nat) : String :=
  String.mk (((s.toList.drop (min a b)).take (max a b - min a b)))

/-- Model of the JavaScript String.prototype.length: the number of UTF-16
code units (astral characters count twice). -/
def utf16Len (s : String) : Nat :=
  (s.toList.map (fun c => if c.toNat < 65536 then 1 else 2)).sum

/-- ASCII lower-casing of one character. -/
def asciiLowerChar (c : Char) : Char :=
  if 65 ≤ c.toNat ∧ c.toNat ≤ 90 then Char.ofNat (c.toNat + 32) else c

/-- Model of JavaScript String.prototype.toLowerCase on the ASCII fragment.
The code only applies it to strings already validated to be ASCII. -/
def asciiLower (s : String) : String :=
  String.mk (s.toList.map asciiLowerChar)

/-- Membership of a character in a character list, as a Bool; models
JavaScript String.prototype.includes with a one-character argument. -/
def charListContains (l : List Char) (c : Char) : Bool :=
  l.any (fun x => x == c)

/-- Model of JavaScript String.prototype.includes with a one-character
argument, on strings. -/
def stringIncludesChar (s : String) (c : Char) : Bool :=
  charListContains s.toList c

/-- Result of the WHATWG URL constructor, restricted to the fields this
application reads: protocol scheme, hostname and explicit port. -/
structure UrlObject where
  scheme : String
  hostname : String
  port : Option Nat
deriving DecidableEq

/-- Model of the WHATWG origin getter for special schemes:
scheme, "://", hostname, and ":port" when a non-default port is present. -/
def UrlObject.origin (u : UrlObject) : String :=
  u.scheme ++ "://" ++ u.hostname ++
    (match u.port with
     | none => ""
     | some p => ":" ++ toString p)

/-- Code points that make a host invalid for a special scheme under the
WHATWG URL standard (forbidden host/domain code points; C0 controls,
space, delimiters, percent and DEL). -/
def isForbiddenHostChar (c : Char) : Bool :=
  decide (c.toNat ≤ 31 ∨ c.toNat = 127 ∨
    c = ' ' ∨ c = '#' ∨ c = '/' ∨ c = ':' ∨ c = '<' ∨ c = '>' ∨ c = '?' ∨
    c = '@' ∨ c = '[' ∨ c = '\\' ∨ c = ']' ∨ c = '^' ∨ c = '|' ∨ c = '%')

/-- Characters that terminate the authority component of a special-scheme
URL. -/
def isAuthorityEnd (c : Char) : Bool :=
  decide (c = '/' ∨ c = '?' ∨ c = '#' ∨ c = '\\')

/-- The host-and-port part of an authority: everything after the last
at-sign (the part before it is userinfo), or the whole list if none. -/
def afterLastAt (l : List Char) : List Char :=
  (l.reverse.takeWhile (fun c => c != '@')).reverse

/-- Model of the WHATWG URL constructor (new URL(input)) on the fragment
this application exercises: absolute http or https URLs written with a
lower-case scheme and a single double slash, an optional userinfo part,
a non-empty host without IPv6 brackets, and an optional decimal port.
Leading and trailing C0 controls and spaces are trimmed and embedded tabs
and newlines removed, as the standard prescribes. Inputs outside this
fragment (other schemes, scheme case variants, extra slashes after the
scheme, IPv6 hosts, IPv4 or IDNA canonicalisation) are not modelled and
yield none; the concrete inputs appearing in the theorems below all lie
inside the modelled fragment, where the model agrees with the standard. -/
def parseUrl (input : String) : Option UrlObject :=
  let cs1 := ((input.toList.dropWhile (fun c => decide (c.toNat ≤ 32))).reverse.dropWhile
    (fun c => decide (c.toNat ≤ 32))).reverse
  let cs := cs1.filter (fun c => decide (¬ (c = '\t' ∨ c = '\n' ∨ c = '\r')))
  let schemeRest : Option (String × List Char) :=
    if startsWithChars cs ("http://".toList) then some ("http", cs.drop 7)
    else if startsWithChars cs ("https://".toList) then some ("https", cs.drop 8)
    else none
  match schemeRest with
  | none => none
  | some (scheme, rest) =>
    let authority := rest.takeWhile (fun c => ! isAuthorityEnd c)
    let hostport := afterLastAt authority
    if hostport.any (fun c => decide (c = '[' ∨ c = ']')) then none
    else
      let host := hostport.takeWhile (fun c => c != ':')
      let portPart := hostport.dropWhile (fun c => c != ':')
      if host = [] then none
      else if host.any isForbiddenHostChar then none
      else
        let hostname := String.mk (host.map asciiLowerChar)
        match portPart with
        | [] => some ⟨scheme, hostname, none⟩
        | _ :: portDigits =>
          if portDigits = [] then some ⟨scheme, hostname, none⟩
          else if portDigits.all (fun c => decide (48 ≤ c.toNat ∧ c.toNat ≤ 57)) then
            let n := portDigits.foldl (fun a c => a * 10 + (c.toNat - 48)) 0
            if n > 65535 then none
            else if (scheme = "http" ∧ n = 80) ∨ (scheme = "https" ∧ n = 443) then
              some ⟨scheme, hostname, none⟩
            else some ⟨scheme, hostname, some n⟩
          else none


/-- The error cases of shortenUrl in src/services/linkShortenerService.ts,
one constructor per reject branch, in source order. -/
inductive ShortenError where
  | emptyInput
  | invalidProtocol
  | localHost
  | invalidDomain
  | malformedUrl
deriving DecidableEq

/-- The random path of a short link: the source computes
Math.random().toString(36).substring(2, 8). The argument rand36 stands for
the string Math.random().toString(36), supplied by the environment; the
function applies the substring(2, 8) the source performs on it. -/
def randomPath (rand36 : String) : String :=
  jsSubstring rand36 2 8

/-- Base-36 digit characters as JavaScript Number.prototype.toString(36)
prints them: 0-9 then lower-case a-z. -/
def base36DigitChar (n : Nat) : Char :=
  if n < 10 then Char.ofNat (48 + n) else Char.ofNat (87 + n)

/-- The string Number.prototype.toString(36) prints for a number in (0, 1)
whose base-36 fractional expansion is the given digit list: a zero, a dot,
then the digits. -/
def base36FracString (digits : List Nat) : String :=
  "0." ++ String.mk (digits.map base36DigitChar)

/-- The rational value of a base-36 fractional digit list. -/
def base36FracValue (digits : List Nat) : ℚ :=
  digits.foldr (fun d acc => ((d : ℚ) + acc) / 36) 0

/-- Embedding of shortenUrl from src/services/linkShortenerService.ts,
lines 10-53. Each reject branch becomes an error value, in source order:
empty after trim, protocol check, URL parse failure, localhost check,
missing period in hostname; the success branch builds the fixed base
origin plus the substring(2, 8) of the environment-supplied random
base-36 string. The simulated delay is modelled separately by
shortenUrlTimed. -/
def shortenUrl (longUrl : String) (rand36 : String) : Except ShortenError String :=
  if jsTrim longUrl = "" then .error .emptyInput
  else if ¬ (jsStartsWith (jsTrim longUrl) ("http://") = true ∨
      jsStartsWith (jsTrim longUrl) ("https://") = true) then .error .invalidProtocol
  else
    match parseUrl (jsTrim longUrl) with
    | none => .error .malformedUrl
    | some urlObject =>
      if urlObject.hostname = "localhost" ∨ urlObject.hostname = "127.0.0.1" then
        .error .localHost
      else if ¬ (stringIncludesChar urlObject.hostname '.' = true) then
        .error .invalidDomain
      else .ok ("https://shrtco.de/" ++ randomPath rand36)

/-- The setTimeout delay of shortenUrl, in milliseconds (source line 53). -/
def shortenDelayMs : Nat := 1200

/-- Timed embedding of shortenUrl: the whole callback body, validation
included, runs inside setTimeout(cb, 1200), so every call settles exactly
when the 1200 ms delay elapses; the first component is that settle time
and the second the outcome the callback produces. -/
def shortenUrlTimed (longUrl : String) (rand36 : String) :
    Nat × Except ShortenError String :=
  (shortenDelayMs, shortenUrl longUrl rand36)

/-- The error cases of customizeShortUrl in
src/services/linkShortenerService.ts, one constructor per reject branch,
in source order. -/
inductive CustomizeError where
  | emptyPath
  | pathTooShort
  | pathTooLong
  | invalidCharacters
  | reservedPath
  | urlParseFailure
deriving DecidableEq

/-- The reserved-word list of customizeShortUrl (source lines 92-96). -/
def reservedPaths : List String :=
  ["test", "admin", "user", "link", "api", "blog", "contact", "help",
   "status", "docs", "pricing", "about", "jobs", "legal", "support",
   "mail", "url", "shorten", "home", "dashboard", "login", "signup"]

/-- The character class of the path regex in customizeShortUrl:
[a-zA-Z0-9_-]. -/
def isAllowedPathChar (c : Char) : Bool :=
  decide ((97 ≤ c.toNat ∧ c.toNat ≤ 122) ∨ (65 ≤ c.toNat ∧ c.toNat ≤ 90) ∨
    (48 ≤ c.toNat ∧ c.toNat ≤ 57) ∨ c = '_' ∨ c = '-')

/-- Model of the regex test of customizeShortUrl
(/^[a-zA-Z0-9_-]+$/.test): every character lies in the class; the
one-or-more requirement is guaranteed separately, since the empty check
precedes this test. -/
def regexPathTest (p : String) : Bool :=
  p.toList.all isAllowedPathChar

/-- Membership of a path in the reserved-word list
(reservedPaths.includes). -/
def reservedListContains (p : String) : Bool :=
  reservedPaths.contains p

/-- Embedding of customizeShortUrl from src/services/linkShortenerService.ts,
lines 64-110. Reject branches in source order: empty after trim, length
below 4, length above 32, a character outside [a-zA-Z0-9_-] (the regex
also demands non-emptiness, already guaranteed by the first check),
lower-cased path in the reserved list, and failure to parse the current
short URL; on success the result is the parsed URL's origin, a slash and
the trimmed path. Lengths are UTF-16 code-unit counts as in JS. The
simulated delay is modelled separately by customizeShortUrlTimed. -/
def customizeShortUrl (currentShortUrl : String) (customPath : String) :
    Except CustomizeError String :=
  if jsTrim customPath = "" then .error .emptyPath
  else if utf16Len (jsTrim customPath) < 4 then .error .pathTooShort
  else if utf16Len (jsTrim customPath) > 32 then .error .pathTooLong
  else if ¬ (regexPathTest (jsTrim customPath) = true) then
    .error .invalidCharacters
  else if reservedListContains (asciiLower (jsTrim customPath)) = true then
    .error .reservedPath
  else
    match parseUrl currentShortUrl with
    | some urlObject => .ok (urlObject.origin ++ "/" ++ jsTrim customPath)
    | none => .error .urlParseFailure

/-- The setTimeout delay of customizeShortUrl, in milliseconds (source
line 110). -/
def customizeDelayMs : Nat := 900

/-- Timed embedding of customizeShortUrl: the whole callback body,
validation included, runs inside setTimeout(cb, 900), so every call
settles exactly when the 900 ms delay elapses. -/
def customizeShortUrlTimed (currentShortUrl : String) (customPath : String) :
    Nat × Except CustomizeError String :=
  (customizeDelayMs, customizeShortUrl currentShortUrl customPath)

/-- The one failure message generatePathSuggestions ever rejects with
(source line 172). -/
def suggestionFailureMessage : String :=
  "Failed to get suggestions from the AI. Please try again."

/-- JSON values, as JSON.parse can produce them. -/
inductive JsonValue where
  | null
  | bool (b : Bool)
  | num (n : Int)
  | str (s : String)
  | arr (elems : List JsonValue)
  | obj (fields : List (String × JsonValue))

/-- Checks a JSON element list the way suggestions.every together with the
return statement does: all elements are strings, yielding those strings. -/
def asStringList : List JsonValue → Option (List String)
  | [] => some []
  | .str s :: rest => (asStringList rest).map (fun xs => s :: xs)
  | _ :: _ => none

/-- The validation generatePathSuggestions performs on the parsed payload:
Array.isArray(suggestions) and suggestions.every of typeof string; when it
holds the parsed array itself is returned. -/
def isStringArray : JsonValue → Option (List String)
  | .arr xs => asStringList xs
  | _ => none

/-- Outcome of the external generative-text call and the subsequent
JSON.parse, as the environment delivers it to generatePathSuggestions:
the provider call rejects, or it returns text that is not valid JSON, or
it returns text that parses to the given JSON value. -/
inductive ProviderOutcome where
  | callError
  | malformedJson
  | payload (v : JsonValue)

/-- Embedding of generatePathSuggestions from
src/services/linkShortenerService.ts, lines 121-175. The try block awaits
the provider call, parses its text as JSON and throws when the result is
not an array of strings; the catch block turns every one of those
failures into the single generic message, and no second call is made
(the model consumes exactly one provider outcome). -/
def generatePathSuggestions : ProviderOutcome → Except String (List String)
  | .callError => .error suggestionFailureMessage
  | .malformedJson => .error suggestionFailureMessage
  | .payload v =>
    match isStringArray v with
    | some xs => .ok xs
    | none => .error suggestionFailureMessage

/-- The click-count mapping stored in local storage under the single key
shortLinkClicks: short-URL strings to counts, absent keys undefined.
A JavaScript object is a finite map; it is modelled by its lookup
function. -/
def ClickData : Type := String → Option Nat

/-- Property assignment clicks[shortUrl] = v on the mapping. -/
def setClick (shortUrl : String) (v : Nat) (d : ClickData) : ClickData :=
  fun k => if k = shortUrl then some v else d k

/-- Embedding of initializeClickCount (source lines 211-217): read the
blob, and only when the key is absent write 0 back; otherwise the store
is left as it was. -/
def initializeClickCount (shortUrl : String) (d : ClickData) : ClickData :=
  match d shortUrl with
  | none => setClick shortUrl 0 d
  | some _ => d

/-- Embedding of getClickCount (source lines 224-227): read the blob and
return the count, or 0 when absent; the second component is the store
after the call, which the code never writes to on this path. -/
def getClickCount (shortUrl : String) (d : ClickData) : Nat × ClickData :=
  ((d shortUrl).getD 0, d)

/-- Embedding of incrementClickCount (source lines 234-240): read the
blob, add 1 to the count (0 when absent), write the blob back and return
the new count. -/
def incrementClickCount (shortUrl : String) (d : ClickData) : Nat × ClickData :=
  ((d shortUrl).getD 0 + 1, setClick shortUrl ((d shortUrl).getD 0 + 1) d)

/-- The empty click store: local storage with no entry under
shortLinkClicks parses to the empty object. -/
def emptyClickData : ClickData := fun _ => none

/-- A store that already holds a count of 5 for the key a, as a prior
session can leave behind. -/
def presetStore : ClickData :=
  fun k => if k = "a" then some 5 else none


/-- The application state relevant to the counter invariant, from
src/App.tsx: the currently displayed short URL, the click store, and the
ghost history of every short URL a successful shorten or customize has
produced. -/
structure AppState where
  shortUrl : Option String
  store : ClickData
  produced : List String

/-- The application before any interaction: no short URL, an empty click
store, nothing produced. -/
def initialAppState : AppState :=
  ⟨none, emptyClickData, []⟩

/-- One user-visible transition of the application, from the handlers in
src/App.tsx and the click handler in src/components/ShortLinkDisplay.tsx.
A successful shorten stores the result and initialises its counter
(handleShortenUrl, lines 36-40); a failed shorten clears the displayed
URL (line 48); a successful customize replaces the displayed URL and
initialises the new counter (handleCustomizeUrl, lines 61-64); a failed
customize only sets an error message; a click on the displayed link
increments its counter (handleLinkClick). -/
inductive AppStep : AppState → AppState → Prop where
  | shortenSuccess (s : AppState) (longUrl rand36 u : String) :
      shortenUrl longUrl rand36 = .ok u →
      AppStep s ⟨some u, initializeClickCount u s.store, u :: s.produced⟩
  | shortenFailure (s : AppState) (longUrl rand36 : String) (e : ShortenError) :
      shortenUrl longUrl rand36 = .error e →
      AppStep s ⟨none, s.store, s.produced⟩
  | customizeSuccess (s : AppState) (cur path u : String) :
      s.shortUrl = some cur →
      customizeShortUrl cur path = .ok u →
      AppStep s ⟨some u, initializeClickCount u s.store, u :: s.produced⟩
  | customizeFailure (s : AppState) (cur path : String) (e : CustomizeError) :
      s.shortUrl = some cur →
      customizeShortUrl cur path = .error e →
      AppStep s s
  | click (s : AppState) (u : String) :
      s.shortUrl = some u →
      AppStep s ⟨s.shortUrl, (incrementClickCount u s.store).2, s.produced⟩

/-- States the application can reach from its initial state. -/
inductive AppReachable : AppState → Prop where
  | start : AppReachable initialAppState
  | step {s s' : AppState} : AppReachable s → AppStep s s' → AppReachable s'

/-- A concrete random string for the demonstration run, standing for a
Math.random() value whose base-36 expansion begins with digits
a, b, c, d, e, f, g, h. -/
def demoRand : String := "0.abcdefgh"

/-- A concrete long URL for the demonstration run. -/
def demoLong : String := "https://example.com"

/-- The short URL the demonstration run produces. -/
def demoShort : String := "https://shrtco.de/abcdef"

/-- The application state after one successful shorten of demoLong with
random source demoRand. -/
def demoState : AppState :=
  ⟨some demoShort, initializeClickCount demoShort emptyClickData, [demoShort]⟩


theorem setClick_self (k : String) (v : Nat) (d : ClickData) :
    setClick k v d k = some v := by
  simp [setClick]

theorem setClick_other (k k' : String) (v : Nat) (d : ClickData) (h : k' ≠ k) :
    setClick k v d k' = d k' := by
  simp [setClick, h]

theorem initializeClickCount_apply (k : String) (d : ClickData) :
    initializeClickCount k d k = some ((d k).getD 0) := by
  unfold initializeClickCount
  cases h : d k with
  | none => simp [setClick]
  | some n => simp [h]

/-- Claim C5 is refuted at a store that already holds a count: initialize
is a no-op there, so get afterwards returns the pre-existing count 5, not
0 as the claim demands of every store state. -/
theorem click_counter_counterexample :
    (getClickCount "a" (initializeClickCount "a" presetStore)).1 = 5 ∧ (5 : Nat) ≠ 0 := by
  exact ⟨rfl, by decide⟩

/-- Claim C5 (amended): on a key with no existing entry, initialize then
get yields 0; increment always returns and persists the previous count
plus one; three increments starting from an absent key return 1, 2, 3 and
get afterwards returns 3; get returns the stored count, or 0 when no
entry exists. -/
theorem click_counter_contract (d : ClickData) (k : String) (h : d k = none)
    (d2 : ClickData) (k2 : String) (n : Nat) (h2 : d2 k2 = some n) :
    (getClickCount k (initializeClickCount k d)).1 = 0
    ∧ (incrementClickCount k2 d2).1 = (getClickCount k2 d2).1 + 1
    ∧ (getClickCount k2 ((incrementClickCount k2 d2).2)).1 = (getClickCount k2 d2).1 + 1
    ∧ (incrementClickCount k d).1 = 1
    ∧ (incrementClickCount k ((incrementClickCount k d).2)).1 = 2
    ∧ (incrementClickCount k ((incrementClickCount k ((incrementClickCount k d).2)).2)).1 = 3
    ∧ (getClickCount k ((incrementClickCount k ((incrementClickCount k ((incrementClickCount k d).2)).2)).2)).1 = 3
    ∧ (getClickCount k d).1 = 0
    ∧ (getClickCount k2 d2).1 = n := by
  refine ⟨?_, ?_, ?_, ?_, ?_, ?_, ?_, ?_, ?_⟩
  · simp [getClickCount, initializeClickCount_apply, h]
  · simp [incrementClickCount, getClickCount]
  · simp [incrementClickCount, getClickCount, setClick]
  · simp [incrementClickCount, h]
  · simp [incrementClickCount, h, setClick]
  · simp [incrementClickCount, h, setClick]
  · simp [getClickCount, incrementClickCount, h, setClick]
  · simp [getClickCount, h]
  · simp [getClickCount, h2]

theorem click_counter_contract_witness :
    emptyClickData "b" = none
    ∧ presetStore "a" = some 5
    ∧ (getClickCount "b" (initializeClickCount "b" emptyClickData)).1 = 0 :=
  ⟨rfl, rfl, (click_counter_contract emptyClickData "b" rfl presetStore "a" 5 rfl).1⟩

/-- Claim C6: initializeClickCount is idempotent; it gives the key the
entry it already had (or 0 when absent); after an increment a further
initialize is a no-op on the whole store; and initialize never lowers a
count, so an initialize-increment-initialize run on the same key reads
the old count plus one, never 0 again. -/
theorem initialize_idempotent (d : ClickData) (k : String) :
    initializeClickCount k (initializeClickCount k d) = initializeClickCount k d
    ∧ initializeClickCount k d k = some ((d k).getD 0)
    ∧ initializeClickCount k (setClick k 0 d) = setClick k 0 d
    ∧ initializeClickCount k ((incrementClickCount k (initializeClickCount k d)).2)
        = (incrementClickCount k (initializeClickCount k d)).2
    ∧ (getClickCount k (initializeClickCount k d)).1 = (getClickCount k d).1
    ∧ (getClickCount k (initializeClickCount k
        ((incrementClickCount k (initializeClickCount k d)).2))).1
        = (getClickCount k d).1 + 1 := by
  have happ : initializeClickCount k d k = some ((d k).getD 0) :=
    initializeClickCount_apply k d
  have hop : ∀ d' : ClickData, d' k = some ((d' k).getD 0) →
      initializeClickCount k d' = d' := by
    intro d' hd'
    unfold initializeClickCount
    cases hdk : d' k with
    | none => rw [hdk] at hd'; exact absurd hd' (by simp)
    | some m => simp
  refine ⟨?_, happ, ?_, ?_, ?_, ?_⟩
  · exact hop _ (by rw [happ]; simp [happ])
  · exact hop _ (by simp [setClick])
  · exact hop _ (by simp [incrementClickCount, setClick])
  · simp [getClickCount, happ]
  · simp [getClickCount, incrementClickCount, initializeClickCount_apply, setClick, happ]

/-- Claim C10: initialize and increment on a key leave every other key's
stored value untouched, and get leaves the whole store as it was. -/
theorem counter_store_frame (d : ClickData) (k k' : String) (h : k ≠ k') :
    initializeClickCount k d k' = d k'
    ∧ (incrementClickCount k d).2 k' = d k'
    ∧ (getClickCount k d).2 = d := by
  refine ⟨?_, ?_, rfl⟩
  · unfold initializeClickCount
    cases hdk : d k with
    | none => exact setClick_other k k' 0 d (Ne.symm h)
    | some m => rfl
  · exact setClick_other k k' _ d (Ne.symm h)

theorem counter_store_frame_witness :
    ("a" : String) ≠ "b"
    ∧ initializeClickCount "a" emptyClickData "b" = emptyClickData "b" :=
  ⟨by decide, (counter_store_frame emptyClickData "a" "b" (by decide)).1⟩

/-- Claim C9: generatePathSuggestions either resolves to a list of
strings or rejects with the single generic failure message; that message
appears exactly when the provider call errors, the response is malformed
JSON, or the parsed payload is not an array of strings; a payload that is
an array of strings is returned as is, and only one provider outcome is
ever consumed. -/
theorem suggestions_error_normalization (o : ProviderOutcome) :
    ((∃ xs, generatePathSuggestions o = .ok xs)
      ∨ generatePathSuggestions o = .error suggestionFailureMessage)
    ∧ (∀ msg, generatePathSuggestions o = .error msg → msg = suggestionFailureMessage)
    ∧ (generatePathSuggestions o = .error suggestionFailureMessage ↔
        (o = .callError ∨ o = .malformedJson ∨
          ∃ v, o = .payload v ∧ isStringArray v = none))
    ∧ (∀ v xs, o = .payload v → isStringArray v = some xs →
        generatePathSuggestions o = .ok xs) := by
  cases o with
  | callError => simp [generatePathSuggestions]
  | malformedJson => simp [generatePathSuggestions]
  | payload v =>
    cases hv : isStringArray v with
    | none =>
      refine ⟨?_, ?_, ?_, ?_⟩
      · right; simp [generatePathSuggestions, hv]
      · intro msg hmsg
        simp [generatePathSuggestions, hv] at hmsg
        exact hmsg.symm
      · simp [generatePathSuggestions, hv]
      · intro v1 xs h1 h2
        cases h1
        rw [hv] at h2
        exact absurd h2 (by simp)
    | some xs =>
      refine ⟨?_, ?_, ?_, ?_⟩
      · left; exact ⟨xs, by simp [generatePathSuggestions, hv]⟩
      · intro msg hmsg
        simp [generatePathSuggestions, hv] at hmsg
      · simp [generatePathSuggestions, hv]
      · intro v1 xs1 h1 h2
        cases h1
        rw [hv] at h2
        cases h2
        simp [generatePathSuggestions, hv]

/-- Claim C7 is refuted: the blank input, invalid on its face, still
settles only when the full 1200 ms simulated delay elapses, and the
two-character custom path settles only at the full 900 ms delay; neither
rejection happens before the delay. -/
theorem validation_delay_counterexample :
    (shortenUrlTimed "" ("0.abcdefgh")).1 = 1200
    ∧ (shortenUrlTimed "" ("0.abcdefgh")).2 = .error .emptyInput
    ∧ (1200 : Nat) ≠ 0
    ∧ (customizeShortUrlTimed demoShort ("ab")).1 = 900
    ∧ (customizeShortUrlTimed demoShort ("ab")).2 = .error .pathTooShort
    ∧ (900 : Nat) ≠ 0 :=
  ⟨rfl, rfl, by decide, rfl, rfl, by decide⟩

/-- Claim C7 (amended): all validation of shortenUrl and customizeShortUrl
runs inside the setTimeout callback, so every call, with a valid or an
invalid input, settles exactly when the fixed simulated delay elapses;
validation never shortens the wait, and the outcome is the one the
validation pipeline computes. -/
theorem validation_delay_contract (longUrl rand36 cur path : String) :
    (shortenUrlTimed longUrl rand36).1 = shortenDelayMs
    ∧ (shortenUrlTimed longUrl rand36).2 = shortenUrl longUrl rand36
    ∧ (customizeShortUrlTimed cur path).1 = customizeDelayMs
    ∧ (customizeShortUrlTimed cur path).2 = customizeShortUrl cur path
    ∧ shortenDelayMs = 1200
    ∧ customizeDelayMs = 900 :=
  ⟨rfl, rfl, rfl, rfl, rfl, rfl⟩

/-- Claim C1, evaluated at its failing input: Math.random() can return
the double 0.5, whose base-36 expansion is the single digit 18 (value
18/36 = 1/2), printed by toString(36) as the three-character string
0.i; substring(2, 8) of it is the one-character string i, so shortenUrl
on a fully valid input resolves to a short URL whose path has length 1,
not 6. -/
theorem shorten_random_path_length_bug :
    base36FracString [18] = "0.i"
    ∧ base36FracValue [18] = 1 / 2
    ∧ shortenUrl ("https://example.com") (base36FracString [18])
        = .ok ("https://shrtco.de/" ++ "i")
    ∧ (randomPath (base36FracString [18])).length = 1
    ∧ (randomPath (base36FracString [18])).length ≠ 6 := by
  refine ⟨rfl, by norm_num [base36FracValue], rfl, rfl, by decide⟩

/-- Claim C2 is refuted at the input from its own example: the string
not-a-url fails the protocol check, which the code runs before ever
trying to parse, so the rejection is the invalid-protocol error and not
the malformed-URL error the claim names. -/
theorem shorten_not_a_url_counterexample :
    shortenUrl ("not-a-url") ("0.abcdefgh") = .error .invalidProtocol
    ∧ ShortenError.invalidProtocol ≠ ShortenError.malformedUrl
    ∧ shortenUrl ("not-a-url") ("0.abcdefgh") ≠ .error .malformedUrl := by
  refine ⟨rfl, by decide, ?_⟩
  intro hc
  rw [show shortenUrl ("not-a-url") ("0.abcdefgh") = .error .invalidProtocol from rfl] at hc
  exact absurd hc (by simp)

/-- Claim C2 (amended): shortenUrl trims its input and rejects exactly in
these cases, checked in this order: empty input when the trimmed input is
blank; invalid protocol when it does not start with http:// or https://;
malformed URL when it cannot be parsed; local host when the parsed
hostname is localhost or 127.0.0.1; invalid domain when the hostname
contains no period. In particular shortenUrl of not-a-url rejects with
the invalid-protocol error, since the protocol check runs before any
parse attempt, and shortenUrl of http://localhost rejects with the
local-host error. -/
theorem shorten_rejection_contract (s r : String) :
    (shortenUrl s r = .error .emptyInput ↔ jsTrim s = "")
    ∧ (shortenUrl s r = .error .invalidProtocol ↔
        (jsTrim s ≠ "" ∧ ¬ (jsStartsWith (jsTrim s) ("http://") = true ∨
          jsStartsWith (jsTrim s) ("https://") = true)))
    ∧ (shortenUrl s r = .error .malformedUrl ↔
        (jsTrim s ≠ "" ∧ (jsStartsWith (jsTrim s) ("http://") = true ∨
          jsStartsWith (jsTrim s) ("https://") = true) ∧ parseUrl (jsTrim s) = none))
    ∧ (shortenUrl s r = .error .localHost ↔
        (jsTrim s ≠ "" ∧ (jsStartsWith (jsTrim s) ("http://") = true ∨
          jsStartsWith (jsTrim s) ("https://") = true) ∧
          ∃ u, parseUrl (jsTrim s) = some u ∧
            (u.hostname = "localhost" ∨ u.hostname = "127.0.0.1")))
    ∧ (shortenUrl s r = .error .invalidDomain ↔
        (jsTrim s ≠ "" ∧ (jsStartsWith (jsTrim s) ("http://") = true ∨
          jsStartsWith (jsTrim s) ("https://") = true) ∧
          ∃ u, parseUrl (jsTrim s) = some u ∧
            ¬ (u.hostname = "localhost" ∨ u.hostname = "127.0.0.1") ∧
            ¬ (stringIncludesChar u.hostname '.' = true)))
    ∧ shortenUrl ("not-a-url") r = .error .invalidProtocol
    ∧ shortenUrl ("http://localhost") r = .error .localHost := by
  have hex1 : shortenUrl ("not-a-url") r = .error .invalidProtocol := rfl
  have hex2 : shortenUrl ("http://localhost") r = .error .localHost := rfl
  have hmain :
      (shortenUrl s r = .error .emptyInput ↔ jsTrim s = "")
      ∧ (shortenUrl s r = .error .invalidProtocol ↔
          (jsTrim s ≠ "" ∧ ¬ (jsStartsWith (jsTrim s) ("http://") = true ∨
            jsStartsWith (jsTrim s) ("https://") = true)))
      ∧ (shortenUrl s r = .error .malformedUrl ↔
          (jsTrim s ≠ "" ∧ (jsStartsWith (jsTrim s) ("http://") = true ∨
            jsStartsWith (jsTrim s) ("https://") = true) ∧ parseUrl (jsTrim s) = none))
      ∧ (shortenUrl s r = .error .localHost ↔
          (jsTrim s ≠ "" ∧ (jsStartsWith (jsTrim s) ("http://") = true ∨
            jsStartsWith (jsTrim s) ("https://") = true) ∧
            ∃ u, parseUrl (jsTrim s) = some u ∧
              (u.hostname = "localhost" ∨ u.hostname = "127.0.0.1")))
      ∧ (shortenUrl s r = .error .invalidDomain ↔
          (jsTrim s ≠ "" ∧ (jsStartsWith (jsTrim s) ("http://") = true ∨
            jsStartsWith (jsTrim s) ("https://") = true) ∧
            ∃ u, parseUrl (jsTrim s) = some u ∧
              ¬ (u.hostname = "localhost" ∨ u.hostname = "127.0.0.1") ∧
              ¬ (stringIncludesChar u.hostname '.' = true))) := by
    by_cases h1 : jsTrim s = ""
    · have he : shortenUrl s r = .error .emptyInput := by
        unfold shortenUrl; rw [if_pos h1]
      refine ⟨?_, ?_, ?_, ?_, ?_⟩ <;> rw [he] <;> simp [h1]
    · by_cases h2 : jsStartsWith (jsTrim s) ("http://") = true ∨
          jsStartsWith (jsTrim s) ("https://") = true
      · cases hp : parseUrl (jsTrim s) with
        | none =>
          have he : shortenUrl s r = .error .malformedUrl := by
            unfold shortenUrl
            rw [if_neg h1, if_neg (not_not_intro h2), hp]
          refine ⟨?_, ?_, ?_, ?_, ?_⟩ <;> rw [he] <;> simp [h1, h2, hp]
        | some u =>
          by_cases h3 : u.hostname = "localhost" ∨ u.hostname = "127.0.0.1"
          · have he : shortenUrl s r = .error .localHost := by
              unfold shortenUrl
              rw [if_neg h1, if_neg (not_not_intro h2), hp]
              simp [h3]
            refine ⟨?_, ?_, ?_, ?_, ?_⟩ <;> rw [he] <;> simp [h1, h2, hp, h3] <;> tauto
          · by_cases h4 : stringIncludesChar u.hostname '.' = true
            · have he : shortenUrl s r = .ok ("https://shrtco.de/" ++ randomPath r) := by
                unfold shortenUrl
                rw [if_neg h1, if_neg (not_not_intro h2), hp]
                simp [h3, h4]
              refine ⟨?_, ?_, ?_, ?_, ?_⟩ <;> rw [he] <;> simp [h1, h2, hp, h3, h4]
            · have he : shortenUrl s r = .error .invalidDomain := by
                unfold shortenUrl
                rw [if_neg h1, if_neg (not_not_intro h2), hp]
                simp [h3, h4]
              refine ⟨?_, ?_, ?_, ?_, ?_⟩ <;> rw [he] <;> simp [h1, h2, hp, h3, h4] <;> tauto
      · have he : shortenUrl s r = .error .invalidProtocol := by
          unfold shortenUrl
          rw [if_neg h1, if_pos h2]
        refine ⟨?_, ?_, ?_, ?_, ?_⟩ <;> rw [he] <;> simp [h1, h2]
  exact ⟨hmain.1, hmain.2.1, hmain.2.2.1, hmain.2.2.2.1, hmain.2.2.2.2, hex1, hex2⟩

/-- Claim C3: customizeShortUrl trims the path and rejects exactly in
these cases, checked in this order: empty path when the trimmed path is
blank; too short when its length is below 4; too long when above 32;
invalid characters when some character falls outside the class
letters, digits, underscore and dash; reserved path when its lower-casing
is in the fixed reserved list; and URL-parse failure when the current
short URL cannot be parsed. In particular a two-character path rejects as
too short and the path admin rejects as reserved. -/
theorem customize_rejection_contract (cur path : String) :
    (customizeShortUrl cur path = .error .emptyPath ↔ jsTrim path = "")
    ∧ (customizeShortUrl cur path = .error .pathTooShort ↔
        (jsTrim path ≠ "" ∧ utf16Len (jsTrim path) < 4))
    ∧ (customizeShortUrl cur path = .error .pathTooLong ↔
        (jsTrim path ≠ "" ∧ ¬ utf16Len (jsTrim path) < 4 ∧ utf16Len (jsTrim path) > 32))
    ∧ (customizeShortUrl cur path = .error .invalidCharacters ↔
        (jsTrim path ≠ "" ∧ ¬ utf16Len (jsTrim path) < 4 ∧ ¬ utf16Len (jsTrim path) > 32
          ∧ ¬ (regexPathTest (jsTrim path) = true)))
    ∧ (customizeShortUrl cur path = .error .reservedPath ↔
        (jsTrim path ≠ "" ∧ ¬ utf16Len (jsTrim path) < 4 ∧ ¬ utf16Len (jsTrim path) > 32
          ∧ regexPathTest (jsTrim path) = true
          ∧ reservedListContains (asciiLower (jsTrim path)) = true))
    ∧ (customizeShortUrl cur path = .error .urlParseFailure ↔
        (jsTrim path ≠ "" ∧ ¬ utf16Len (jsTrim path) < 4 ∧ ¬ utf16Len (jsTrim path) > 32
          ∧ regexPathTest (jsTrim path) = true
          ∧ ¬ (reservedListContains (asciiLower (jsTrim path)) = true)
          ∧ parseUrl cur = none))
    ∧ customizeShortUrl cur ("ab") = .error .pathTooShort
    ∧ customizeShortUrl cur ("admin") = .error .reservedPath := by
  have hex1 : customizeShortUrl cur ("ab") = .error .pathTooShort := rfl
  have hex2 : customizeShortUrl cur ("admin") = .error .reservedPath := rfl
  have hmain :
      (customizeShortUrl cur path = .error .emptyPath ↔ jsTrim path = "")
      ∧ (customizeShortUrl cur path = .error .pathTooShort ↔
          (jsTrim path ≠ "" ∧ utf16Len (jsTrim path) < 4))
      ∧ (customizeShortUrl cur path = .error .pathTooLong ↔
          (jsTrim path ≠ "" ∧ ¬ utf16Len (jsTrim path) < 4 ∧ utf16Len (jsTrim path) > 32))
      ∧ (customizeShortUrl cur path = .error .invalidCharacters ↔
          (jsTrim path ≠ "" ∧ ¬ utf16Len (jsTrim path) < 4 ∧ ¬ utf16Len (jsTrim path) > 32
            ∧ ¬ (regexPathTest (jsTrim path) = true)))
      ∧ (customizeShortUrl cur path = .error .reservedPath ↔
          (jsTrim path ≠ "" ∧ ¬ utf16Len (jsTrim path) < 4 ∧ ¬ utf16Len (jsTrim path) > 32
            ∧ regexPathTest (jsTrim path) = true
            ∧ reservedListContains (asciiLower (jsTrim path)) = true))
      ∧ (customizeShortUrl cur path = .error .urlParseFailure ↔
          (jsTrim path ≠ "" ∧ ¬ utf16Len (jsTrim path) < 4 ∧ ¬ utf16Len (jsTrim path) > 32
            ∧ regexPathTest (jsTrim path) = true
            ∧ ¬ (reservedListContains (asciiLower (jsTrim path)) = true)
            ∧ parseUrl cur = none)) := by
    by_cases k1 : jsTrim path = ""
    · have he : customizeShortUrl cur path = .error .emptyPath := by
        unfold customizeShortUrl; rw [if_pos k1]
      refine ⟨?_, ?_, ?_, ?_, ?_, ?_⟩ <;> rw [he] <;> simp [k1]
    · by_cases k2 : utf16Len (jsTrim path) < 4
      · have he : customizeShortUrl cur path = .error .pathTooShort := by
          unfold customizeShortUrl; rw [if_neg k1, if_pos k2]
        refine ⟨?_, ?_, ?_, ?_, ?_, ?_⟩ <;> rw [he] <;> simp [k1, k2]
      · by_cases k3 : utf16Len (jsTrim path) > 32
        · have he : customizeShortUrl cur path = .error .pathTooLong := by
            unfold customizeShortUrl; rw [if_neg k1, if_neg k2, if_pos k3]
          refine ⟨?_, ?_, ?_, ?_, ?_, ?_⟩ <;> rw [he] <;> simp [k1, k2, k3]
        · by_cases k4 : regexPathTest (jsTrim path) = true
          · by_cases k5 : reservedListContains (asciiLower (jsTrim path)) = true
            · have he : customizeShortUrl cur path = .error .reservedPath := by
                unfold customizeShortUrl
                rw [if_neg k1, if_neg k2, if_neg k3, if_neg (not_not_intro k4), if_pos k5]
              refine ⟨?_, ?_, ?_, ?_, ?_, ?_⟩ <;> rw [he] <;> simp [k1, k2, k3, k4, k5]
            · cases hp : parseUrl cur with
              | none =>
                have he : customizeShortUrl cur path = .error .urlParseFailure := by
                  unfold customizeShortUrl
                  rw [if_neg k1, if_neg k2, if_neg k3, if_neg (not_not_intro k4), if_neg k5, hp]
                refine ⟨?_, ?_, ?_, ?_, ?_, ?_⟩ <;> rw [he] <;> simp [k1, k2, k3, k4, k5, hp]
              | some u =>
                have he : customizeShortUrl cur path
                    = .ok (u.origin ++ "/" ++ jsTrim path) := by
                  unfold customizeShortUrl
                  rw [if_neg k1, if_neg k2, if_neg k3, if_neg (not_not_intro k4), if_neg k5, hp]
                refine ⟨?_, ?_, ?_, ?_, ?_, ?_⟩ <;> rw [he] <;> simp [k1, k2, k3, k4, k5, hp]
          · have he : customizeShortUrl cur path = .error .invalidCharacters := by
              unfold customizeShortUrl
              rw [if_neg k1, if_neg k2, if_neg k3, if_pos k4]
            refine ⟨?_, ?_, ?_, ?_, ?_, ?_⟩ <;> rw [he] <;> simp [k1, k2, k3, k4]
  exact ⟨hmain.1, hmain.2.1, hmain.2.2.1, hmain.2.2.2.1, hmain.2.2.2.2.1,
    hmain.2.2.2.2.2, hex1, hex2⟩

/-- Claim C4: when the current short URL parses and the trimmed custom
path passes every validation check, customizeShortUrl resolves to the
parsed URL's origin, a slash and the trimmed path. -/
theorem customize_success_contract (cur path : String) (u : UrlObject)
    (hu : parseUrl cur = some u)
    (h1 : jsTrim path ≠ "")
    (h2 : ¬ utf16Len (jsTrim path) < 4)
    (h3 : ¬ utf16Len (jsTrim path) > 32)
    (h4 : regexPathTest (jsTrim path) = true)
    (h5 : ¬ reservedListContains (asciiLower (jsTrim path)) = true) :
    customizeShortUrl cur path = .ok (u.origin ++ "/" ++ jsTrim path) := by
  unfold customizeShortUrl
  rw [if_neg h1, if_neg h2, if_neg h3, if_neg (not_not_intro h4), if_neg h5, hu]

theorem customize_success_contract_witness :
    parseUrl ("https://shrtco.de/abc123") = some ⟨"https", "shrtco.de", none⟩
    ∧ customizeShortUrl ("https://shrtco.de/abc123") ("valid-path_1")
        = .ok (UrlObject.origin ⟨"https", "shrtco.de", none⟩ ++ "/" ++ jsTrim ("valid-path_1"))
    ∧ UrlObject.origin ⟨"https", "shrtco.de", none⟩ ++ "/" ++ jsTrim ("valid-path_1")
        = "https://shrtco.de/valid-path_1" := by
  refine ⟨rfl, ?_, rfl⟩
  exact customize_success_contract ("https://shrtco.de/abc123") ("valid-path_1")
    ⟨"https", "shrtco.de", none⟩ rfl (by decide) (by decide) (by decide) (by decide) (by decide)


theorem initializeClickCount_isSome_self (k : String) (d : ClickData) :
    (initializeClickCount k d k).isSome = true := by
  rw [initializeClickCount_apply]; rfl

theorem initializeClickCount_isSome_mono (k v : String) (d : ClickData)
    (h : (d v).isSome = true) : (initializeClickCount k d v).isSome = true := by
  unfold initializeClickCount
  cases hdk : d k with
  | some m => exact h
  | none =>
    by_cases hv : v = k
    · subst hv; simp [setClick]
    · simpa [setClick, hv] using h

theorem incrementClickCount_isSome_mono (k v : String) (d : ClickData)
    (h : (d v).isSome = true) : ((incrementClickCount k d).2 v).isSome = true := by
  by_cases hv : v = k
  · subst hv; simp [incrementClickCount, setClick]
  · simpa [incrementClickCount, setClick, hv] using h

theorem initializeClickCount_new_entry (k v : String) (d : ClickData)
    (hnone : d v = none) (hne : initializeClickCount k d v ≠ none) :
    initializeClickCount k d v = some 0 := by
  cases hd : d k with
  | some m =>
    have heq : initializeClickCount k d = d := by
      unfold initializeClickCount; rw [hd]
    rw [heq] at hne
    exact absurd hnone hne
  | none =>
    have heq : initializeClickCount k d = setClick k 0 d := by
      unfold initializeClickCount; rw [hd]
    rw [heq] at hne ⊢
    by_cases hv : v = k
    · subst hv; simp [setClick]
    · rw [setClick_other k v 0 d hv] at hne ⊢
      exact absurd hnone hne

theorem app_invariant (s : AppState) (h : AppReachable s) :
    (∀ u, u ∈ s.produced → (s.store u).isSome = true)
    ∧ (∀ u, s.shortUrl = some u → u ∈ s.produced) := by
  induction h with
  | start =>
    refine ⟨?_, ?_⟩
    · intro u hu
      exact absurd hu (List.not_mem_nil u)
    · intro u hu
      exact Option.noConfusion hu
  | @step t t' hr hstep ih =>
    cases hstep with
    | shortenSuccess lU r36 u hok =>
      refine ⟨?_, ?_⟩
      · intro v hv
        rcases List.mem_cons.mp hv with h1 | h1
        · subst h1; exact initializeClickCount_isSome_self v t.store
        · exact initializeClickCount_isSome_mono u v t.store (ih.1 v h1)
      · intro v hv
        have h1 : u = v := Option.some.inj hv
        subst h1
        exact List.mem_cons_self u t.produced
    | shortenFailure lU r36 e herr =>
      exact ⟨fun v hv => ih.1 v hv, fun v hv => Option.noConfusion hv⟩
    | customizeSuccess curU p u hcur hok =>
      refine ⟨?_, ?_⟩
      · intro v hv
        rcases List.mem_cons.mp hv with h1 | h1
        · subst h1; exact initializeClickCount_isSome_self v t.store
        · exact initializeClickCount_isSome_mono u v t.store (ih.1 v h1)
      · intro v hv
        have h1 : u = v := Option.some.inj hv
        subst h1
        exact List.mem_cons_self u t.produced
    | customizeFailure curU p e hcur herr =>
      exact ih
    | click u hcur =>
      refine ⟨?_, ?_⟩
      · intro v hv
        exact incrementClickCount_isSome_mono u v t.store (ih.1 v hv)
      · intro v hv
        exact ih.2 v hv

/-- Claim C8: in every reachable application state, every short URL a
successful shorten or customize has produced has a click-counter entry;
the displayed short URL, the only one a click can increment, always has
an entry; and from a reachable state any step that creates a counter
entry creates it with the value 0 — so a counter entry exists, created
at 0, before any increment on it can be observed. -/
theorem produced_urls_have_counters (s : AppState) (h : AppReachable s) :
    (∀ u, u ∈ s.produced → (s.store u).isSome = true)
    ∧ (∀ u, s.shortUrl = some u → (s.store u).isSome = true)
    ∧ (∀ t u, AppStep s t → s.store u = none → t.store u ≠ none → t.store u = some 0) := by
  obtain ⟨inv1, inv2⟩ := app_invariant s h
  refine ⟨inv1, ?_, ?_⟩
  · intro u hu
    exact inv1 u (inv2 u hu)
  · intro t u hstep hnone hne
    cases hstep with
    | shortenSuccess lU r36 w hok =>
      exact initializeClickCount_new_entry w u s.store hnone hne
    | shortenFailure lU r36 e herr =>
      exact absurd hnone hne
    | customizeSuccess curU p w hcur hok =>
      exact initializeClickCount_new_entry w u s.store hnone hne
    | customizeFailure curU p e hcur herr =>
      exact absurd hnone hne
    | click w hcur =>
      by_cases hv : u = w
      · subst hv
        have hsome : (s.store u).isSome = true := inv1 u (inv2 u hcur)
        rw [hnone] at hsome
        exact absurd hsome (by simp)
      · have hne2 : (incrementClickCount w s.store).2 u ≠ none := hne
        have hfr : (incrementClickCount w s.store).2 u = s.store u :=
          setClick_other w u ((s.store w).getD 0 + 1) s.store hv
        rw [hfr] at hne2
        exact absurd hnone hne2

theorem produced_urls_have_counters_witness :
    AppReachable demoState ∧ (demoState.store demoShort).isSome = true := by
  have hok : shortenUrl demoLong demoRand = .ok demoShort := rfl
  have hstep : AppStep initialAppState demoState :=
    AppStep.shortenSuccess initialAppState demoLong demoRand demoShort hok
  have hr : AppReachable demoState := AppReachable.step AppReachable.start hstep
  exact ⟨hr, (produced_urls_have_counters demoState hr).1 demoShort
    (List.mem_cons_self demoShort [])⟩
